import Mathlib

/-!
Verification of the FencyScore tournament core (`src/logic/`): the competitor
scoring model (`competitor/player.py`), the match state machine (`match.py`)
and the round pairing engine (`round.py`), shallowly embedded as executable
Lean definitions.  Python exceptions are modelled by `Except`/error-option
results; mutation is modelled by explicit state passing.
-/

namespace FencyScore

/-- Result enumeration for a player, from `MatchResult` in
`src/logic/competitor/player.py`. -/
inductive MatchResult where
  | win
  | loss
  | draw
deriving DecidableEq

/-- Competitor record, from class `Player` in `src/logic/competitor/player.py`.
Python's unbounded machine integers for touch counts are embedded as `Int`
(constructor-time validators only admit non-negative values); the `opponents`
set of competitor ids is a `Finset Nat`.  The `cached_score` field mirrors the
`_cached_score` memoization slot. -/
structure Player where
  id : Nat
  victories : Nat
  draws : Nat
  touches_scored : Int
  touches_received : Int
  opponents : Finset Nat
  exempted : Bool
  cached_score : Option ((Nat × Nat) × Int × Int)
deriving DecidableEq

/-- Derived result tuple `(victories, draws)`, from property `Player.result`. -/
def Player.result (p : Player) : Nat × Nat :=
  (p.victories, p.draws)

/-- Derived touch indicator, from property `Player.indicator`. -/
def Player.indicator (p : Player) : Int :=
  p.touches_scored - p.touches_received

/-- Derived ranking key `((victories, draws), indicator, touches_scored)`, from
property `Player.score`.  The Python property recomputes the tuple when
`_cached_score` is `None` and otherwise returns the cached tuple; every mutation
site resets the cache to `None`, which `Option.getD` mirrors. -/
def Player.score (p : Player) : (Nat × Nat) × Int × Int :=
  p.cached_score.getD ((p.result, p.indicator, p.touches_scored))

/-- Strict lexicographic comparison of two score tuples, the order Python uses
for `Player.__lt__` (`self.score < other.score`, tuples compared
lexicographically). -/
def scoreLt (x y : (Nat × Nat) × Int × Int) : Bool :=
  decide (x.1.1 < y.1.1) ||
    (x.1.1 == y.1.1 &&
      (decide (x.1.2 < y.1.2) ||
        (x.1.2 == y.1.2 &&
          (decide (x.2.1 < y.2.1) ||
            (x.2.1 == y.2.1 && decide (x.2.2 < y.2.2))))))

/-- Result pair produced by the `result_map` dictionary in
`Player.record_match`: the recorded result for the calling side and the
complementary result for the opponent. -/
def resultMap (r : MatchResult) : MatchResult × MatchResult :=
  match r with
  | .win => (.win, .loss)
  | .loss => (.loss, .win)
  | .draw => (.draw, .draw)

/-- One-sided statistics update, from `Player._record_match_side`: increments
`victories` on a WIN and `draws` on a DRAW, accumulates both touch counts,
inserts the opponent id into `opponents` and invalidates the cached score. -/
def recordMatchSide (p : Player) (opponent_id : Nat) (self_result : MatchResult)
    (ts tr : Int) : Player :=
  { p with
    victories := if self_result = .win then p.victories + 1 else p.victories
    draws := if self_result = .draw then p.draws + 1 else p.draws
    touches_scored := p.touches_scored + ts
    touches_received := p.touches_received + tr
    opponents := insert opponent_id p.opponents
    cached_score := none }

/-- Errors raised by the competitor operations in
`src/logic/competitor/player.py` (all `ValueError` in Python; the spec names
them DuplicateOpponentError, NegativeTouchesError and AlreadyExemptedError). -/
inductive PlayerErr where
  | duplicateOpponent
  | negativeTouches
  | alreadyExempted
deriving DecidableEq

/-- Two-sided match recording, from `Player.record_match`: fails when either
player already lists the other as an opponent, then when either touch count is
negative (in that order), and otherwise updates both players through
`_record_match_side` with complementary results and swapped touch counts. -/
def recordMatch (a b : Player) (self_result : MatchResult) (ts tr : Int) :
    Except PlayerErr (Player × Player) :=
  if b.id ∈ a.opponents then .error .duplicateOpponent
  else if a.id ∈ b.opponents then .error .duplicateOpponent
  else if ts < 0 ∨ tr < 0 then .error .negativeTouches
  else
    let rr := resultMap self_result
    .ok (recordMatchSide a b.id rr.1 ts tr, recordMatchSide b a.id rr.2 tr ts)

/-- Bye marking, from `Player.add_bye`: fails when the player is already
exempted, otherwise sets the flag. -/
def addBye (p : Player) : Except PlayerErr Player :=
  if p.exempted then .error .alreadyExempted
  else .ok { p with exempted := true }

/-- Statistics reset, from `Player.reset`: zeroes all statistics, clears the
opponents set and the exemption flag, and invalidates the cached score; the id
is untouched. -/
def resetPlayer (p : Player) : Player :=
  { p with
    victories := 0
    draws := 0
    touches_scored := 0
    touches_received := 0
    opponents := ∅
    exempted := false
    cached_score := none }

/-- Fresh competitor with identifier `i`, as produced by the `Player`
constructor defaults (all statistics zero, no opponents, not exempted, no
cached score). -/
def freshPlayer (i : Nat) : Player :=
  { id := i
    victories := 0
    draws := 0
    touches_scored := 0
    touches_received := 0
    opponents := ∅
    exempted := false
    cached_score := none }

/-- Status enumeration for one side of a match, from `PlayerStatus` in
`src/logic/match.py`. -/
inductive PlayerStatus where
  | win
  | loss
  | draw
deriving DecidableEq

/-- One side of a match, from class `Side` in `src/logic/match.py`: an
immutable player binding plus an optional non-negative score and an optional
status. -/
structure Side where
  player : Player
  score : Option Nat
  player_status : Option PlayerStatus
deriving DecidableEq

/-- Complement mapping used by `Side._set_player_status_from_opponent`
(the `player_status_mapping` dictionary: WIN↔LOSS, DRAW↔DRAW). -/
def statusFromOpponent (s : PlayerStatus) : PlayerStatus :=
  match s with
  | .win => .loss
  | .loss => .win
  | .draw => .draw

/-- Score comparison used by `Side._set_player_status_from_scores`: higher
score wins, equal scores give a draw. -/
def statusFromScores (self_score other_score : Nat) : PlayerStatus :=
  if self_score > other_score then .win
  else if self_score < other_score then .loss
  else .draw

/-- Status resolution, from `Side._update_player_status`: an explicit status
argument wins; else the complement of the opponent's status when it is set;
else a score comparison when both scores are set; else the status is cleared.
`self` is the side after `_update_score` has run. -/
def updatePlayerStatus (self other : Side) (player_status : Option PlayerStatus) :
    Option PlayerStatus :=
  match player_status with
  | some s => some s
  | none =>
    match other.player_status with
    | some os => some (statusFromOpponent os)
    | none =>
      match self.score, other.score with
      | some ss, some os => some (statusFromScores ss os)
      | _, _ => none

/-- Side update, from `Side.update`: `_update_score` overwrites the score with
the argument (clearing it when `None`), then `_update_player_status` resolves
the status of this side only. -/
def sideUpdate (self other : Side) (player_status : Option PlayerStatus)
    (score : Option Nat) : Side :=
  let self1 := { self with score := score }
  { self1 with player_status := updatePlayerStatus self1 other player_status }

/-- Match status enumeration, from `MatchStatus` in `src/logic/match.py`. -/
inductive MatchStatus where
  | empty
  | valid
  | invalid
  | locked
deriving DecidableEq

/-- Match record, from class `Match` in `src/logic/match.py`: an optional piste
number, a frozen maximum score and draw-allowance flag, the two sides and the
current status field `match_status`. -/
structure MatchState where
  piste : Option Nat
  score_max : Nat
  draw_allowed : Bool
  right : Side
  left : Side
  match_status : MatchStatus
deriving DecidableEq

/-- Errors raised by the match operations in `src/logic/match.py`.
`lockedMutation` and `invalidRecord` are the two `ValueError`s of the source
(the spec's LockedMatchMutationError and InvalidMatchRecordError);
`attributeStatus` models Python's `AttributeError` for the undeclared
attribute `status` (the declared attrs field is `match_status`, and `Match` is
a slots-based attrs class, so both reading and assigning `self.status`
raise). -/
inductive MatchErr where
  | lockedMutation
  | invalidRecord
  | attributeStatus
deriving DecidableEq

/-- Status-rule check with draws allowed, from
`Match._is_invalid_with_draw_allowed_by_player_status`: both sides sharing the
same non-DRAW status is invalid.  The helper is only reached when `_is_empty`
is false, so it is translated over the present status values. -/
def isInvalidWithDrawAllowedByPlayerStatus (rp lp : PlayerStatus) : Bool :=
  rp == lp && rp != .draw

/-- Score-rule check with draws allowed, from
`Match._is_invalid_with_draw_allowed_by_score`: a WIN side must be strictly
above the opponent, a LOSS side strictly below, a DRAW side exactly equal. -/
def isInvalidWithDrawAllowedByScore (rp lp : PlayerStatus) (rs ls : Nat) : Bool :=
  (rp == .win && decide (rs ≤ ls)) ||
  (rp == .loss && decide (rs ≥ ls)) ||
  (rp == .draw && rs != ls) ||
  (lp == .win && decide (ls ≤ rs)) ||
  (lp == .loss && decide (ls ≥ rs)) ||
  (lp == .draw && ls != rs)

/-- Status-rule check with draws disallowed, from
`Match._is_invalid_without_draw_allowed_by_player_status`: equal statuses or
any DRAW status is invalid. -/
def isInvalidWithoutDrawAllowedByPlayerStatus (rp lp : PlayerStatus) : Bool :=
  rp == lp || rp == .draw || lp == .draw

/-- Score-rule check with draws disallowed, from
`Match._is_invalid_without_draw_allowed_by_score`: the comparisons are
non-strict, so equal scores are tolerated for a WIN/LOSS split. -/
def isInvalidWithoutDrawAllowedByScore (rp lp : PlayerStatus) (rs ls : Nat) : Bool :=
  (rp == .win && decide (rs < ls)) ||
  (rp == .loss && decide (rs > ls)) ||
  (lp == .win && decide (ls < rs)) ||
  (lp == .loss && decide (ls > rs))

/-- Combined invalidity check, from `Match._is_invalid`, dispatching on
`draw_allowed` to the two rule families. -/
def isInvalidVals (draw_allowed : Bool) (rp lp : PlayerStatus) (rs ls : Nat) : Bool :=
  if draw_allowed then
    isInvalidWithDrawAllowedByPlayerStatus rp lp ||
      isInvalidWithDrawAllowedByScore rp lp rs ls
  else
    isInvalidWithoutDrawAllowedByPlayerStatus rp lp ||
      isInvalidWithoutDrawAllowedByScore rp lp rs ls

/-- Status recomputation decision of `Match._update_match_status` (together
with `Match._is_empty`): EMPTY when any score or status is missing, else
INVALID when the validity rules fail, else VALID.  In the source this value is
assigned to the undeclared attribute `status` instead of the `match_status`
field; the decision logic itself is as below. -/
def computeMatchStatus (m : MatchState) : MatchStatus :=
  match m.right.player_status, m.left.player_status, m.right.score, m.left.score with
  | some rp, some lp, some rs, some ls =>
    if isInvalidVals m.draw_allowed rp lp rs ls then .invalid else .valid
  | _, _, _, _ => .empty

/-- Side update at match level, from `Match._update_side`.  The source guard is
`if self.match_status != MatchStatus.LOCKED: raise ValueError(...)`: it raises
the locked-mutation error precisely when the match is NOT locked.  When the
match IS locked the side update itself executes, after which
`_update_match_status` assigns `self.status`; `status` is not a declared field
of the slots-based attrs class, so that assignment raises `AttributeError`
while the side mutation persists.  The result pairs the post-call match state
with the raised error, if any. -/
def matchUpdateSide (m : MatchState) (onRight : Bool)
    (player_status : Option PlayerStatus) (score : Option Nat) :
    MatchState × Option MatchErr :=
  if m.match_status ≠ .locked then
    (m, some .lockedMutation)
  else
    let self := if onRight then m.right else m.left
    let other := if onRight then m.left else m.right
    let self1 := sideUpdate self other player_status score
    let m1 := if onRight then { m with right := self1 } else { m with left := self1 }
    (m1, some .attributeStatus)

/-- Right-side update entry point, from `Match.update_right`. -/
def matchUpdateRight (m : MatchState) (player_status : Option PlayerStatus)
    (score : Option Nat) : MatchState × Option MatchErr :=
  matchUpdateSide m true player_status score

/-- Left-side update entry point, from `Match.update_left`. -/
def matchUpdateLeft (m : MatchState) (player_status : Option PlayerStatus)
    (score : Option Nat) : MatchState × Option MatchErr :=
  matchUpdateSide m false player_status score

/-- Match recording, from `Match.record_match`.  Its first statement is
`if self.status != MatchStatus.VALID`, which reads the attribute `status`;
`status` is never successfully assigned anywhere (`_update_match_status` writes
to the same undeclared name of the slots-based class, which itself raises), so
the read raises `AttributeError` on every call before any side is recorded or
the match locked, leaving the match state unchanged. -/
def matchRecordMatch (m : MatchState) : MatchState × Option MatchErr :=
  (m, some .attributeStatus)

/-- Stable insertion of `x` into an already sorted list: `x` goes in front of
the first element that is not strictly below it. -/
def insertSortedBy (lt : α → α → Bool) (x : α) : List α → List α
  | [] => [x]
  | y :: ys => if lt y x then y :: insertSortedBy lt x ys else x :: y :: ys

/-- Stable ascending sort with respect to a strict comparison, modelling
Python's stable `list.sort()`: elements are ordered ascending by `lt` and
elements neither of which is below the other keep their relative order. -/
def stableSortBy (lt : α → α → Bool) : List α → List α
  | [] => []
  | x :: xs => insertSortedBy lt x (stableSortBy lt xs)

/-- Roster sort performed by `Round.__attrs_post_init__`
(`self.players.sort()`): a stable sort driven by `Player.__lt__`, i.e.
ascending by `score` — the call passes no `reverse` flag. -/
def sortPlayers (players : List Player) : List Player :=
  stableSortBy (fun a b => scoreLt a.score b.score) players

/-- Bye separation, from `Round._separate_players`: when the roster size is
odd, scan the sorted roster from its last element backwards
(`enumerate(reversed(competing_players))`) for the first non-exempted player
and pop it (`pop(-1 - i)` removes exactly the element found at position
`length - 1 - i`); when the size is even, or every player is exempted, no bye
is taken. -/
def separatePlayers (players : List Player) : List Player × Option Player :=
  if players.length % 2 ≠ 0 then
    match players.reverse.findIdx? (fun p => !p.exempted) with
    | some i =>
      let pos := players.length - 1 - i
      (players.eraseIdx pos, players.get? pos)
    | none => (players, none)
  else (players, none)

/-- Strict lexicographic comparison on result tuples `(victories, draws)`,
the order Python uses to sort the group keys. -/
def resultKeyLt (x y : Nat × Nat) : Bool :=
  decide (x.1 < y.1) || (x.1 == y.1 && decide (x.2 < y.2))

/-- Odd-size adjustment loop of `Round._group_players`: every group except the
last that has odd size appends the head popped from the next group
(`group.append(grouped_players[i + 1].pop(0))`).  A pop from an empty next
group would raise `IndexError`, but groups built from result classes of the
roster are nonempty when their turn comes, so that case is unreachable and
translated as leaving the odd group alone. -/
def oddFixAux (g : List Player) : List (List Player) → List (List Player)
  | [] => [g]
  | g2 :: rest =>
    if g.length % 2 ≠ 0 then
      match g2 with
      | [] => g :: oddFixAux [] rest
      | h :: t => (g ++ [h]) :: oddFixAux t rest
    else g :: oddFixAux g2 rest

/-- Entry point of the odd-size adjustment loop: the current group is threaded
through `oddFixAux`. -/
def oddFix : List (List Player) → List (List Player)
  | [] => []
  | g :: gs => oddFixAux g gs

/-- Grouping, from `Round._group_players`: players are bucketed by their
`result` tuple in roster order (`defaultdict(list)` appends), the buckets are
emitted for the distinct keys in descending key order
(`sorted(groups.keys(), reverse=True)`; the keys are distinct, so sorting
ascending and reversing is the same order), and the odd-size adjustment loop
runs over all groups but the last. -/
def groupPlayers (players : List Player) : List (List Player) :=
  let keys := (players.map Player.result).dedup
  let sortedKeys := (stableSortBy resultKeyLt keys).reverse
  oddFix (sortedKeys.map (fun k => players.filter (fun p => p.result == k)))

/-- Pairing weight, from `Round._matching_distance`:
`abs(abs(rank1 - rank2) - size // 2)`. -/
def matchingDistance (rank1 rank2 size : Nat) : Nat :=
  ((((rank1 : Int) - (rank2 : Int)).natAbs : Int) - ((size / 2 : Nat) : Int)).natAbs

/-- Edge of the intra-group matching graph: the two endpoint positions within
the group and the pairing weight. -/
structure GEdge where
  i : Nat
  j : Nat
  weight : Nat
deriving DecidableEq

/-- Edge list of the matching graph, from `Round._group_to_matching_graph`:
for every position pair `i < j` (`combinations(enumerate(group), 2)`), an edge
is added exactly when the second player's id is not in the first player's
opponents set, weighted by `_matching_distance`. -/
def groupEdges (group : List Player) : List GEdge :=
  (List.range group.length).flatMap fun i =>
    ((List.range group.length).filter (fun j => i < j)).filterMap fun j =>
      match group.get? i, group.get? j with
      | some p1, some p2 =>
        if p2.id ∈ p1.opponents then none
        else some ⟨i, j, matchingDistance i j group.length⟩
      | _, _ => none

/-- Whether two edges share no endpoint, so both can belong to one matching. -/
def edgesDisjoint (e f : GEdge) : Bool :=
  decide (e.i ≠ f.i) && decide (e.i ≠ f.j) && decide (e.j ≠ f.i) && decide (e.j ≠ f.j)

/-- All matchings (sets of pairwise disjoint edges) that can be formed from an
edge list.  The fuel argument only bounds the recursion depth so that the
definition is structural: every recursive call is on a strictly shorter list
(a sublist of the tail), so fuel equal to the list length — as supplied by
`allMatchings` — is always sufficient and the out-of-fuel case is
unreachable. -/
def allMatchingsAux : Nat → List GEdge → List (List GEdge)
  | _, [] => [[]]
  | 0, _ :: _ => [[]]
  | fuel + 1, e :: es =>
    allMatchingsAux fuel es ++
      (allMatchingsAux fuel (es.filter (fun f => edgesDisjoint e f))).map (e :: ·)

/-- All matchings of an edge list. -/
def allMatchings (es : List GEdge) : List (List GEdge) :=
  allMatchingsAux es.length es

/-- Total weight of a matching. -/
def matchingWeight (m : List GEdge) : Nat :=
  (m.map GEdge.weight).sum

/-- Whether matching `m1` is strictly preferred to `m2`: larger cardinality
first, then smaller total weight. -/
def betterMatching (m1 m2 : List GEdge) : Bool :=
  decide (m2.length < m1.length) ||
    (m1.length == m2.length && decide (matchingWeight m1 < matchingWeight m2))

/-- Modelled from the spec and the documented behaviour of the external
dependency `networkx.min_weight_matching` (the one call in `Round._match_group`
whose code is not part of this repository): it returns a maximum-cardinality
matching of the graph that has minimum total weight among maximum-cardinality
matchings.  Tie-breaking among optimal matchings is unspecified in networkx and
is fixed here as the first optimum found; only the cardinality and emptiness of
the result are relied on by the theorems below, and those are the same for
every optimum. -/
def minWeightMatching (group : List Player) : List GEdge :=
  (allMatchings (groupEdges group)).foldl
    (fun best m => if betterMatching m best then m else best) []

/-- Group matching, from `Round._match_group`: the minimum-weight matching is
kept only when its size equals `len(group) % 2` (the literal source test —
`%`, not `//`); otherwise the empty set is returned to signal failure.  Edge
endpoints are translated back to player pairs. -/
def matchGroup (group : List Player) : List (Player × Player) :=
  let m := minWeightMatching group
  if m.length ≠ group.length % 2 then []
  else
    m.filterMap fun e =>
      match group.get? e.i, group.get? e.j with
      | some a, some b => some (a, b)
      | _, _ => none

/-- Errors raised during round construction.  `indexOutOfRange` models
Python's `IndexError` from `groups.pop(j + 1)`; `unmatchable` models the
`ValueError("Unable to match all players.")` of `Round._merge_groups` (the
spec's UnmatchableRoundError). -/
inductive RoundErr where
  | indexOutOfRange
  | unmatchable
deriving DecidableEq

/-- Forward merge `groups[j] += groups.pop(j + 1)`: the group at `j + 1` is
concatenated onto the group at `j` and removed. -/
def mergeAt (groups : List (List Player)) (j : Nat) : List (List Player) :=
  groups.take j ++ [(groups.get? j).getD [] ++ (groups.get? (j + 1)).getD []] ++
    groups.drop (j + 2)

/-- Merge-and-retry recursion, from `Round._merge_groups`.  `k` is the index
of the group currently examined (`start + i` of the Python loop).  A group
whose `_match_group` result is non-empty is appended to the accumulator and
the loop advances.  Otherwise the branch `(j := start + i) < len(groups)` is
taken — that test is always true, since `j` indexes the current group — and
`groups.pop(j + 1)` either merges the next group in or, when the failing group
is the last one, raises `IndexError`.  The two remaining source branches (the
backward merge `groups[-2] += groups.pop()` that retries from `j - 1` after
dropping the previous group's matches, and the final
`ValueError("Unable to match all players.")`) are translated as written even
though the always-true test in front of them makes them unreachable. -/
def mergeAux (groups : List (List Player)) (acc : List (List (Player × Player)))
    (k : Nat) : Except RoundErr (List (List (Player × Player))) :=
  if h : k < groups.length then
    if matchGroup (groups.get ⟨k, h⟩) ≠ [] then
      mergeAux groups (acc ++ [matchGroup (groups.get ⟨k, h⟩)]) (k + 1)
    else if k < groups.length then
      if h2 : k + 1 < groups.length then
        mergeAux (mergeAt groups k) acc k
      else .error .indexOutOfRange
    else if h3 : 1 < groups.length then
      mergeAux (mergeAt groups (groups.length - 2)) acc.dropLast (k - 1)
    else .error .unmatchable
  else .ok acc
termination_by (groups.length, groups.length - k)
decreasing_by
  · exact Prod.Lex.right _ (by omega)
  · exact Prod.Lex.left _ _ (by simp [mergeAt]; omega)
  · exact Prod.Lex.left _ _ (by simp [mergeAt]; omega)

/-- Entry point `Round._match_groups`: the merge recursion starting with an
empty accumulator at index 0. -/
def matchGroups (groups : List (List Player)) :
    Except RoundErr (List (List (Player × Player))) :=
  mergeAux groups [] 0

/-- Flattening, from `Round._ungroup_matches`: the per-group match lists are
concatenated in group order. -/
def ungroupMatches (gms : List (List (Player × Player))) : List (Player × Player) :=
  gms.flatten

/-- Round construction, from `Round.__attrs_post_init__`: sort the roster in
place, separate the bye, group the competing players, match the groups and
flatten.  The matched pairs are stored as-is (tuples of players — the source
never builds `Match` objects from them), together with the optional bye. -/
def roundBuild (players : List Player) :
    Except RoundErr (List (Player × Player) × Option Player) :=
  let sorted := sortPlayers players
  let sep := separatePlayers sorted
  let groups := groupPlayers sep.1
  (matchGroups groups).map fun gms => (ungroupMatches gms, sep.2)

/-- Operation on a world of `n` competitor objects, indexed by object identity
(`Fin n`): the three mutating competitor operations `record_match`, `add_bye`
and `reset` of `src/logic/competitor/player.py`. -/
inductive Op (n : Nat) where
  | record (i j : Fin n) (res : MatchResult) (ts tr : Int)
  | bye (i : Fin n)
  | reset (i : Fin n)

/-- Application of one competitor operation to a world of `n` competitors.  An
operation that raises in Python leaves every competitor unchanged (the
exception propagates before any mutation).  The `record` case follows
`Player.record_match` statement by statement: the duplicate and negative-touch
guards read the pre-call states, then `self._record_match_side` runs before
`opponent._record_match_side`, the second call reading the world updated by
the first — which is exactly Python's aliasing behaviour when `i = j`. -/
def applyOp (s : Fin n → Player) : Op n → (Fin n → Player)
  | .record i j res ts tr =>
    let a := s i
    let b := s j
    if b.id ∈ a.opponents ∨ a.id ∈ b.opponents ∨ ts < 0 ∨ tr < 0 then s
    else
      let rr := resultMap res
      let s1 := fun k => if k = i then recordMatchSide a b.id rr.1 ts tr else s k
      fun k => if k = j then recordMatchSide (s1 j) a.id rr.2 tr ts else s1 k
  | .bye i =>
    if (s i).exempted then s
    else fun k => if k = i then { s i with exempted := true } else s k
  | .reset i =>
    fun k => if k = i then resetPlayer (s i) else s k

/-- Application of a sequence of competitor operations, first to last. -/
def applyOps (s : Fin n → Player) : List (Op n) → (Fin n → Player)
  | [] => s
  | op :: ops => applyOps (applyOp s op) ops

/-- Whether an operation is a `record_match` call with the same object on both
sides (`player.record_match(opponent=player, ...)`). -/
def selfRecordFree : Op n → Bool
  | .record i j _ _ _ => decide (i ≠ j)
  | _ => true

/-- Whether an operation is a `reset` call. -/
def resetFree : Op n → Bool
  | .reset _ => false
  | _ => true

/-- No competitor's opponents set contains its own id. -/
def NoSelfOpp (s : Fin n → Player) : Prop :=
  ∀ i, (s i).id ∉ (s i).opponents

/-- Opponents membership is symmetric between competitors. -/
def SymmOpp (s : Fin n → Player) : Prop :=
  ∀ i j, (s j).id ∈ (s i).opponents → (s i).id ∈ (s j).opponents

/-- Distinct competitor objects carry distinct ids (the process-wide id
sequence of `Player._id_generator` guarantees this for every real world). -/
def InjIds (s : Fin n → Player) : Prop :=
  ∀ i j, (s i).id = (s j).id → i = j

instance (s : Fin n → Player) : Decidable (NoSelfOpp s) := by
  unfold NoSelfOpp; infer_instance

instance (s : Fin n → Player) : Decidable (SymmOpp s) := by
  unfold SymmOpp; infer_instance

instance (s : Fin n → Player) : Decidable (InjIds s) := by
  unfold InjIds; infer_instance

/-- Side value with the given player, score and status. -/
def sideOf (p : Player) (sc : Option Nat) (ps : Option PlayerStatus) : Side :=
  { player := p, score := sc, player_status := ps }

/-- Match value with the given draw flag, sides and status (piste unset,
maximum score 10). -/
def mkMatch (da : Bool) (r l : Side) (st : MatchStatus) : MatchState :=
  { piste := none, score_max := 10, draw_allowed := da, right := r, left := l,
    match_status := st }

/-- Right side of the §8 concrete scenario: result WIN, score 5. -/
def c7Right : Side := sideOf (freshPlayer 1) (some 5) (some .win)

/-- Left side of the scenario after `update(score=5)` with no explicit result:
the status is inferred from the opponent's WIN. -/
def c7Left : Side := sideUpdate (sideOf (freshPlayer 2) none none) c7Right none (some 5)

/-- The scenario match with draws allowed. -/
def c7MatchDraw : MatchState := mkMatch true c7Right c7Left .empty

/-- The scenario match with draws disallowed. -/
def c7MatchNoDraw : MatchState := mkMatch false c7Right c7Left .empty

/-- Freshly constructed match: both sides unset, status EMPTY (the attrs
default of `match_status`). -/
def c2Fresh : MatchState :=
  mkMatch true (sideOf (freshPlayer 3) none none) (sideOf (freshPlayer 4) none none) .empty

/-- Match whose `match_status` field has been set to LOCKED. -/
def c2Locked : MatchState :=
  mkMatch true (sideOf (freshPlayer 3) (some 5) (some .win))
    (sideOf (freshPlayer 4) (some 1) (some .loss)) .locked

/-- Complete, rule-satisfying match in the VALID state. -/
def c3Valid : MatchState :=
  mkMatch true (sideOf (freshPlayer 5) (some 5) (some .win))
    (sideOf (freshPlayer 6) (some 2) (some .loss)) .valid

/-- Non-locked match with both sides fully unset. -/
def c8NonLocked : MatchState :=
  mkMatch true (sideOf (freshPlayer 7) none none) (sideOf (freshPlayer 8) none none) .empty

/-- Competitor that has already faced the one with id 31. -/
def c4A : Player := { freshPlayer 30 with opponents := {31} }

/-- Competitor that has already faced the one with id 30. -/
def c4B : Player := { freshPlayer 31 with opponents := {30} }

/-- Competitor with one victory (the strictly higher score of the C5 pair). -/
def c5A : Player := { freshPlayer 10 with victories := 1 }

/-- Fresh competitor (the strictly lower score of the C5 pair). -/
def c5B : Player := freshPlayer 11

/-- Fresh competitor, score-tied with `c5D`. -/
def c5C : Player := freshPlayer 12

/-- Fresh competitor, score-tied with `c5C`. -/
def c5D : Player := freshPlayer 13

/-- Non-exempted competitor with the lowest score of the C6 roster. -/
def c6Low : Player := freshPlayer 20

/-- Non-exempted competitor with the middle score of the C6 roster. -/
def c6Mid : Player := { freshPlayer 21 with victories := 1 }

/-- Non-exempted competitor with the highest score of the C6 roster. -/
def c6High : Player := { freshPlayer 22 with victories := 2 }

/-- Competitor already listing id 41 as a past opponent. -/
def c9DupA : Player := { freshPlayer 40 with opponents := {41} }

/-- Fresh competitor with id 41 (the listing in `c9DupA` is one-sided). -/
def c9DupB : Player := freshPlayer 41

/-- Two fresh competitors with distinct ids 1 and 2. -/
def c10Init : Fin 2 → Player :=
  fun k => if k = 0 then freshPlayer 1 else freshPlayer 2

/-- Operation sequence breaking both invariant parts: a legal recording, then
a one-sided `reset`, then a self-recording
(`player.record_match(opponent=player, ...)`). -/
def c10Ops : List (Op 2) :=
  [.record 0 1 .win 0 0, .reset 0, .record 1 1 .draw 0 0]

/-- The world after running `c10Ops`. -/
def c10End : Fin 2 → Player := applyOps c10Init c10Ops

/-- Two fresh competitors with distinct ids 50 and 51. -/
def c10WInit : Fin 2 → Player :=
  fun k => if k = 0 then freshPlayer 50 else freshPlayer 51

/-- A benign operation sequence: one recording between distinct competitors
and one bye. -/
def c10WOps : List (Op 2) :=
  [.record 0 1 .win 2 3, .bye 0]

end FencyScore

namespace FencyScore

/-- C7: in the concrete scenario — right side result WIN and score 5, left
side updated with score 5 and no explicit result (so its status is inferred
as LOSS from the opponent's WIN) — the computed match validity status is
INVALID when draws are allowed (a WIN score must be strictly greater than the
opponent's, and 5 ≤ 5 trips `_is_invalid_with_draw_allowed_by_score`), but
VALID when draws are disallowed (the non-strict rule of
`_is_invalid_without_draw_allowed_by_score` tolerates equal scores for a
WIN/LOSS split). -/
theorem claim7_win_with_equal_scores_asymmetry :
    c7Left.player_status = some .loss ∧
    c7Left.score = some 5 ∧
    computeMatchStatus c7MatchDraw = .invalid ∧
    computeMatchStatus c7MatchNoDraw = .valid := by
  decide

/-- C2 (refuting the claim as stated, supporting the code-bug verdict): the
guard of `Match._update_side` is inverted — it reads
`if self.match_status != MatchStatus.LOCKED: raise ValueError(...)`.  On a
freshly built, EMPTY (hence non-locked) match, both `update_right` and
`update_left` raise the locked-mutation error and change nothing, while on a
LOCKED match the update does not raise that error and the locked match's side
is actually mutated (before the `AttributeError` from the `self.status`
assignment), contradicting "raises iff LOCKED" and "LOCKED is immutable". -/
theorem claim2_locked_guard_inverted :
    c2Fresh.match_status ≠ .locked ∧
    matchUpdateRight c2Fresh none (some 3) = (c2Fresh, some .lockedMutation) ∧
    matchUpdateLeft c2Fresh none (some 3) = (c2Fresh, some .lockedMutation) ∧
    c2Locked.match_status = .locked ∧
    (matchUpdateRight c2Locked none (some 3)).2 ≠ some .lockedMutation ∧
    (matchUpdateRight c2Locked none (some 3)).1.right.score = some 3 := by
  decide

/-- C3 (supporting the code-bug verdict): `Match.record_match` begins with
`if self.status != MatchStatus.VALID`, reading the undeclared attribute
`status` (the declared field is `match_status`), so every call — even on a
match whose `match_status` is VALID and whose data satisfies the validity
rules — raises `AttributeError`, records neither side and never reaches the
LOCKED transition. -/
theorem claim3_record_reads_undefined_attribute :
    (∀ m : MatchState, matchRecordMatch m = (m, some .attributeStatus)) ∧
    computeMatchStatus c3Valid = .valid ∧
    c3Valid.match_status = .valid ∧
    matchRecordMatch c3Valid = (c3Valid, some .attributeStatus) :=
  ⟨fun _ => rfl, by decide, rfl, rfl⟩

/-- C8, counterexample: on a non-locked match the claim says `updateSide`
resolves the updated side's result by the priority rules; instead the inverted
guard of `Match._update_side` raises the locked-mutation error and performs no
update at all. -/
theorem claim8_counterexample_nonlocked_update_refused :
    c8NonLocked.match_status ≠ .locked ∧
    matchUpdateRight c8NonLocked none (some 5) = (c8NonLocked, some .lockedMutation) := by
  decide

/-- C8, amended: the resolution priority holds for the side-update operation
itself (`Side.update`, the operation `_update_side` performs whenever it
proceeds): an explicit result argument wins; else the complement of the other
side's result (WIN↔LOSS, DRAW↔DRAW) is inferred; else, when both scores are
set, the result is derived by score comparison (higher wins, equal gives
DRAW); else the result is left unset.  The score is always overwritten with
the argument, the side's player binding is untouched, and at match level only
the side being updated can change — the opposite side is returned exactly as
it was. -/
theorem claim8_amended_side_resolution :
    ∀ (self other : Side) (sc : Option Nat),
      (∀ r, (sideUpdate self other (some r) sc).player_status = some r) ∧
      ((sideUpdate self other none sc).player_status =
        match other.player_status with
        | some .win => some .loss
        | some .loss => some .win
        | some .draw => some .draw
        | none =>
          match sc, other.score with
          | some a, some b =>
            some (if b < a then .win else if a < b then .loss else .draw)
          | _, _ => none) ∧
      (∀ ps, (sideUpdate self other ps sc).score = sc) ∧
      (∀ ps, (sideUpdate self other ps sc).player = self.player) ∧
      (∀ (m : MatchState) ps, (matchUpdateRight m ps sc).1.left = m.left) ∧
      (∀ (m : MatchState) ps, (matchUpdateLeft m ps sc).1.right = m.right) := by
  intro self other sc
  refine ⟨fun r => rfl, ?_, fun ps => rfl, fun ps => rfl, fun m ps => ?_, fun m ps => ?_⟩
  · cases h : other.player_status with
    | some os =>
      cases os <;> simp [sideUpdate, updatePlayerStatus, statusFromOpponent, h]
    | none =>
      cases sc <;> cases hs : other.score <;>
        simp [sideUpdate, updatePlayerStatus, statusFromScores, h, hs]
  · by_cases h : m.match_status = .locked <;>
      simp [matchUpdateRight, matchUpdateSide, h]
  · by_cases h : m.match_status = .locked <;>
      simp [matchUpdateLeft, matchUpdateSide, h]

/-- Evaluation helper: when the only remaining group fails `_match_group`,
`_merge_groups` takes the always-true `j < len(groups)` branch and
`groups.pop(j + 1)` raises `IndexError`. -/
theorem mergeAux_singleton_fail (g : List Player) (h : matchGroup g = [])
    (acc : List (List (Player × Player))) :
    mergeAux [g] acc 0 = .error .indexOutOfRange := by
  unfold mergeAux
  simp [h]

/-- Evaluation helper: a failing group followed by an empty group first merges
forward (`groups[0] += groups.pop(1)`), then fails again as the only remaining
group and raises `IndexError`. -/
theorem mergeAux_pair_fail (g : List Player) (h : matchGroup g = [])
    (acc : List (List (Player × Player))) :
    mergeAux [g, []] acc 0 = .error .indexOutOfRange := by
  have hm : mergeAt [g, []] 0 = [g] := by simp [mergeAt]
  unfold mergeAux
  simp [h, hm, mergeAux_singleton_fail g h acc]

/-- C1 (refuting the claim, supporting the code-bug verdict): for the roster
of two fresh competitors a perfect rematch-free pairing exists — the
minimum-weight matching of their group has exactly `N / 2 = 1` edge — yet
`Round._match_group` compares the matching size against `len(group) % 2 = 0`
(instead of `len(group) // 2`), discards the pairing as a failure, and
`Round._merge_groups` then raises `IndexError` from `groups.pop(j + 1)`:
construction yields no match list (and never builds any `Match` object — the
source stores raw player tuples and takes no `scoreCeiling`/`drawAllowed`). -/
theorem claim1_even_roster_perfect_pairing_crashes :
    (minWeightMatching [freshPlayer 1, freshPlayer 2]).length = 1 ∧
    matchGroup [freshPlayer 1, freshPlayer 2] = [] ∧
    roundBuild [freshPlayer 1, freshPlayer 2] = .error .indexOutOfRange := by
  refine ⟨by decide, by decide, ?_⟩
  have hg : groupPlayers (separatePlayers (sortPlayers [freshPlayer 1, freshPlayer 2])).1
      = [[freshPlayer 1, freshPlayer 2]] := by decide
  have hm : matchGroup [freshPlayer 1, freshPlayer 2] = [] := by decide
  simp only [roundBuild]
  rw [hg, matchGroups, mergeAux_singleton_fail _ hm]
  rfl

/-- Helper for C4: `_merge_groups` can never reach its
`ValueError("Unable to match all players.")` branch, because that branch sits
behind the test `(j := start + i) < len(groups)`, which is true for every
index the loop visits.  Proved by strong induction on the recursion measure. -/
theorem mergeAux_no_unmatchable_aux :
    ∀ (N : Nat) (groups : List (List Player)) (acc : List (List (Player × Player)))
      (k : Nat), 2 * groups.length + (groups.length - k) ≤ N →
      mergeAux groups acc k ≠ .error .unmatchable := by
  intro N
  induction N with
  | zero =>
    intro groups acc k hN
    have h0 : ¬ k < groups.length := by omega
    unfold mergeAux
    simp [h0]
  | succ n ih =>
    intro groups acc k hN
    unfold mergeAux
    split
    case isTrue h =>
      by_cases hgm : matchGroup (groups.get ⟨k, h⟩) ≠ []
      · rw [if_pos hgm]
        exact ih groups _ (k + 1) (by omega)
      · rw [if_neg hgm]
        by_cases h2 : k + 1 < groups.length
        · rw [dif_pos h2]
          have hl : (mergeAt groups k).length = groups.length - 1 := by
            simp [mergeAt]; omega
          exact ih _ acc k (by omega)
        · rw [dif_neg h2]
          simp
    case isFalse h => simp

/-- C4 (refuting the claim, supporting the code-bug verdict): the recovery
logic of `Round._merge_groups` is broken.  Its "a next group exists" test is
`(j := start + i) < len(groups)`, which always holds, so when the last group
is infeasible the code attempts `groups.pop(j + 1)` and raises `IndexError`
instead of merging backward; in particular a single unmatchable group (two
competitors who already faced each other) ends in `IndexError`, and the
`ValueError("Unable to match all players.")` — the spec's
UnmatchableRoundError — is unreachable for every input. -/
theorem claim4_merge_recovery_unreachable :
    roundBuild [c4A, c4B] = .error .indexOutOfRange ∧
    (∀ (groups : List (List Player)) (acc : List (List (Player × Player))) (k : Nat),
      mergeAux groups acc k ≠ .error .unmatchable) := by
  constructor
  · have hg : groupPlayers (separatePlayers (sortPlayers [c4A, c4B])).1
        = [[c4A, c4B]] := by decide
    have hm : matchGroup [c4A, c4B] = [] := by decide
    simp only [roundBuild]
    rw [hg, matchGroups, mergeAux_singleton_fail _ hm]
    rfl
  · intro groups acc k
    exact mergeAux_no_unmatchable_aux (2 * groups.length + (groups.length - k))
      groups acc k le_rfl

/-- C5 (refuting the claim, supporting the code-bug verdict):
`Round.__attrs_post_init__` calls `self.players.sort()` with no
`reverse=True`, so the roster is sorted by `score` ASCENDING — a competitor
with the strictly greater score is placed strictly AFTER the lower-scored one,
the opposite of the claimed descending order.  The tie part of the claim does
hold: equal-score competitors keep their prior relative order (the sort is
stable). -/
theorem claim5_sort_is_ascending :
    scoreLt c5B.score c5A.score = true ∧
    sortPlayers [c5A, c5B] = [c5B, c5A] ∧
    c5C.score = c5D.score ∧
    sortPlayers [c5C, c5D] = [c5C, c5D] := by
  decide

/-- C6 (refuting the claim, supporting the code-bug verdict): on an odd
all-fresh roster with three distinct scores, `Round._separate_players` scans
`reversed(sorted_roster)` — but the roster was sorted ascending, so the scan
starts at the HIGHEST-scored competitor, and the bye goes to the best-ranked
non-exempted player (here `c6High`) although lower-ranked non-exempted players
exist (`c6Low`).  Construction then crashes with `IndexError` in
`_merge_groups` instead of producing `(N − 1) / 2 = 1` match. -/
theorem claim6_bye_goes_to_top_and_crash :
    scoreLt c6Low.score c6High.score = true ∧
    scoreLt c6Mid.score c6High.score = true ∧
    c6Low.exempted = false ∧
    separatePlayers (sortPlayers [c6Low, c6Mid, c6High]) = ([c6Low, c6Mid], some c6High) ∧
    roundBuild [c6Low, c6Mid, c6High] = .error .indexOutOfRange := by
  refine ⟨by decide, by decide, by decide, by decide, ?_⟩
  have hg : groupPlayers (separatePlayers (sortPlayers [c6Low, c6Mid, c6High])).1
      = [[c6Mid, c6Low], []] := by decide
  have hm : matchGroup [c6Mid, c6Low] = [] := by decide
  simp only [roundBuild]
  rw [hg, matchGroups, mergeAux_pair_fail _ hm]
  rfl

/-- C9: `Player.record_match` raises DuplicateOpponentError whenever either
competitor already lists the other (checked first, so recording the same pair
twice always raises it); with no duplicate it raises NegativeTouchesError when
either touch count is negative; and on success it updates both competitors
symmetrically — each gains the other's id in `opponents`, victories or draws
are incremented per the result and its complement, and touches accumulate
swapped — after which re-recording the pair in either direction raises
DuplicateOpponentError. -/
theorem claim9_record_match_contract :
    ∀ (a b : Player) (res : MatchResult) (ts tr : Int),
      ((b.id ∈ a.opponents ∨ a.id ∈ b.opponents) →
        recordMatch a b res ts tr = .error .duplicateOpponent) ∧
      (b.id ∉ a.opponents → a.id ∉ b.opponents → (ts < 0 ∨ tr < 0) →
        recordMatch a b res ts tr = .error .negativeTouches) ∧
      (b.id ∉ a.opponents → a.id ∉ b.opponents → 0 ≤ ts → 0 ≤ tr →
        ∃ a' b', recordMatch a b res ts tr = .ok (a', b') ∧
          a'.id = a.id ∧ b'.id = b.id ∧
          a'.opponents = insert b.id a.opponents ∧
          b'.opponents = insert a.id b.opponents ∧
          b.id ∈ a'.opponents ∧ a.id ∈ b'.opponents ∧
          (a'.victories = if res = .win then a.victories + 1 else a.victories) ∧
          (a'.draws = if res = .draw then a.draws + 1 else a.draws) ∧
          (b'.victories = if res = .loss then b.victories + 1 else b.victories) ∧
          (b'.draws = if res = .draw then b.draws + 1 else b.draws) ∧
          a'.touches_scored = a.touches_scored + ts ∧
          a'.touches_received = a.touches_received + tr ∧
          b'.touches_scored = b.touches_scored + tr ∧
          b'.touches_received = b.touches_received + ts ∧
          (∀ res2 ts2 tr2, recordMatch a' b' res2 ts2 tr2 = .error .duplicateOpponent) ∧
          (∀ res2 ts2 tr2, recordMatch b' a' res2 ts2 tr2 = .error .duplicateOpponent)) := by
  intro a b res ts tr
  refine ⟨?_, ?_, ?_⟩
  · intro hdup
    by_cases h1 : b.id ∈ a.opponents
    · simp [recordMatch, h1]
    · have h2 : a.id ∈ b.opponents := hdup.resolve_left h1
      simp [recordMatch, h1, h2]
  · intro h1 h2 h3
    simp [recordMatch, h1, h2, h3]
  · intro h1 h2 h3 h4
    have h5 : ¬ (ts < 0 ∨ tr < 0) := by omega
    refine ⟨recordMatchSide a b.id (resultMap res).1 ts tr,
      recordMatchSide b a.id (resultMap res).2 tr ts,
      by simp [recordMatch, h1, h2, h5], rfl, rfl, rfl, rfl,
      by simp [recordMatchSide], by simp [recordMatchSide],
      ?_, ?_, ?_, ?_, rfl, rfl, rfl, rfl, ?_, ?_⟩
    · cases res <;> simp [recordMatchSide, resultMap]
    · cases res <;> simp [recordMatchSide, resultMap]
    · cases res <;> simp [recordMatchSide, resultMap]
    · cases res <;> simp [recordMatchSide, resultMap]
    · intro res2 ts2 tr2
      simp [recordMatch, recordMatchSide]
    · intro res2 ts2 tr2
      simp [recordMatch, recordMatchSide]

/-- Witness for C9: the hypotheses of each part are discharged at concrete
inputs — a one-sided duplicate listing raises DuplicateOpponentError, a
negative touch count raises NegativeTouchesError, and a fresh pair records
successfully with the reciprocal opponents updates. -/
theorem claim9_record_match_contract_witness :
    recordMatch c9DupA c9DupB .win 0 0 = .error .duplicateOpponent ∧
    recordMatch (freshPlayer 42) (freshPlayer 43) .draw (-1) 0 = .error .negativeTouches ∧
    (∃ a' b', recordMatch (freshPlayer 42) (freshPlayer 43) .win 5 3 = .ok (a', b') ∧
      (43 : Nat) ∈ a'.opponents ∧ (42 : Nat) ∈ b'.opponents) := by
  refine ⟨(claim9_record_match_contract c9DupA c9DupB .win 0 0).1 (Or.inl (by decide)),
    (claim9_record_match_contract (freshPlayer 42) (freshPlayer 43) .draw (-1) 0).2.1
      (by decide) (by decide) (Or.inl (by decide)), ?_⟩
  obtain ⟨a', b', hok, -, -, -, -, hma, hmb, -⟩ :=
    (claim9_record_match_contract (freshPlayer 42) (freshPlayer 43) .win 5 3).2.2
      (by decide) (by decide) (by decide) (by decide)
  exact ⟨a', b', hok, hma, hmb⟩

/-- No competitor operation changes any competitor's id. -/
theorem applyOp_id (s : Fin n → Player) (op : Op n) (i : Fin n) :
    (applyOp s op i).id = (s i).id := by
  cases op with
  | record a b res ts tr =>
    simp only [applyOp]
    split
    · rfl
    · by_cases hib : i = b
      · subst hib
        by_cases hia : i = a
        · subst hia
          simp [recordMatchSide]
        · simp [hia, recordMatchSide]
      · by_cases hia : i = a
        · subst hia
          simp [hib, recordMatchSide]
        · simp [hib, hia]
  | bye a =>
    by_cases he : (s a).exempted
    · simp [applyOp, he]
    · by_cases hia : i = a <;> simp [applyOp, he, hia]
  | reset a =>
    by_cases hia : i = a <;> simp [applyOp, hia, resetPlayer]

/-- Id-injectivity of the world is preserved by every operation. -/
theorem applyOp_injIds (s : Fin n → Player) (op : Op n) (h : InjIds s) :
    InjIds (applyOp s op) := by
  intro i j hij
  apply h
  rwa [applyOp_id, applyOp_id] at hij

/-- A `record_match` between two distinct objects preserves no-self-opponent:
the inserted ids are the other player's, which differs from the holder's own
id by id-injectivity. -/
theorem applyOp_noSelf (s : Fin n → Player) (op : Op n) (hinj : InjIds s)
    (hns : NoSelfOpp s) (hop : selfRecordFree op = true) :
    NoSelfOpp (applyOp s op) := by
  cases op with
  | record a b res ts tr =>
    have hab : a ≠ b := by simpa [selfRecordFree] using hop
    by_cases hg : (s b).id ∈ (s a).opponents ∨ (s a).id ∈ (s b).opponents ∨
        ts < 0 ∨ tr < 0
    · intro i
      simp only [applyOp, if_pos hg]
      exact hns i
    · intro i
      by_cases hib : i = b
      · subst hib
        simp only [applyOp, if_neg hg]
        simp [Ne.symm hab, recordMatchSide, Finset.mem_insert, not_or]
        exact ⟨fun he => hab (hinj _ _ he).symm, hns i⟩
      · by_cases hia : i = a
        · subst hia
          simp only [applyOp, if_neg hg]
          simp [hib, recordMatchSide, Finset.mem_insert, not_or]
          exact ⟨fun he => hab (hinj _ _ he), hns i⟩
        · simp only [applyOp, if_neg hg]
          simp [hib, hia]
          exact hns i
  | bye a =>
    intro i
    have hid := applyOp_id s (.bye a) i
    have hopp : (applyOp s (.bye a) i).opponents = (s i).opponents := by
      by_cases he : (s a).exempted
      · simp [applyOp, he]
      · by_cases hia : i = a <;> simp [applyOp, he, hia]
    rw [hid, hopp]
    exact hns i
  | reset a =>
    intro i
    by_cases hia : i = a
    · subst hia
      simp [applyOp, resetPlayer]
    · simp [applyOp, hia]
      exact hns i

/-- Symmetry transfer for a state obtained from `s` by reciprocally inserting
the ids of two distinct competitors `a` and `b` into each other's opponents
sets (the shape of a successful `record_match`). -/
theorem symm_of_update (s s2 : Fin n → Player) (a b : Fin n) (hab : a ≠ b)
    (hinj : InjIds s) (hsym : SymmOpp s)
    (hid : ∀ k, (s2 k).id = (s k).id)
    (hoppb : (s2 b).opponents = insert (s a).id (s b).opponents)
    (hoppa : (s2 a).opponents = insert (s b).id (s a).opponents)
    (hoppo : ∀ k, k ≠ a → k ≠ b → (s2 k).opponents = (s k).opponents) :
    SymmOpp s2 := by
  have hmono : ∀ k, (s k).opponents ⊆ (s2 k).opponents := by
    intro k
    by_cases h1 : k = b
    · subst h1; rw [hoppb]; exact Finset.subset_insert _ _
    · by_cases h2 : k = a
      · subst h2; rw [hoppa]; exact Finset.subset_insert _ _
      · rw [hoppo k h2 h1]
  intro u v hm
  rw [hid] at hm ⊢
  by_cases h1 : u = b
  · subst h1
    rw [hoppb] at hm
    rcases Finset.mem_insert.mp hm with he | hin
    · have hva : v = a := hinj v a he
      subst hva
      rw [hoppa]
      exact Finset.mem_insert_self _ _
    · exact hmono v (hsym u v hin)
  · by_cases h2 : u = a
    · subst h2
      rw [hoppa] at hm
      rcases Finset.mem_insert.mp hm with he | hin
      · have hvb : v = b := hinj v b he
        subst hvb
        rw [hoppb]
        exact Finset.mem_insert_self _ _
      · exact hmono v (hsym u v hin)
    · rw [hoppo u h2 h1] at hm
      exact hmono v (hsym u v hm)

/-- Symmetry of the opponents relation is preserved by `record_match` between
distinct objects and by `add_bye` (which never touches opponents). -/
theorem applyOp_symm (s : Fin n → Player) (op : Op n) (hinj : InjIds s)
    (hsym : SymmOpp s) (hop1 : selfRecordFree op = true)
    (hop2 : resetFree op = true) : SymmOpp (applyOp s op) := by
  cases op with
  | record a b res ts tr =>
    have hab : a ≠ b := by simpa [selfRecordFree] using hop1
    by_cases hg : (s b).id ∈ (s a).opponents ∨ (s a).id ∈ (s b).opponents ∨
        ts < 0 ∨ tr < 0
    · have hs : applyOp s (.record a b res ts tr) = s := by
        simp [applyOp, hg]
      rw [hs]
      exact hsym
    · have hid : ∀ k, (applyOp s (.record a b res ts tr) k).id = (s k).id :=
        fun k => applyOp_id s _ k
      have hb : (applyOp s (.record a b res ts tr) b).opponents =
          insert (s a).id (s b).opponents := by
        simp [applyOp, hg, Ne.symm hab, recordMatchSide]
      have ha : (applyOp s (.record a b res ts tr) a).opponents =
          insert (s b).id (s a).opponents := by
        simp [applyOp, hg, hab, recordMatchSide]
      have ho : ∀ k, k ≠ a → k ≠ b →
          (applyOp s (.record a b res ts tr) k).opponents = (s k).opponents := by
        intro k hka hkb
        simp [applyOp, hg, hka, hkb]
      exact symm_of_update s _ a b hab hinj hsym hid hb ha ho
  | bye a =>
    have hopp : ∀ k, (applyOp s (.bye a) k).opponents = (s k).opponents := by
      intro k
      by_cases he : (s a).exempted
      · simp [applyOp, he]
      · by_cases hka : k = a <;> simp [applyOp, he, hka]
    intro u v hm
    rw [applyOp_id, hopp] at hm
    rw [applyOp_id, hopp]
    exact hsym u v hm
  | reset a =>
    simp [resetFree] at hop2

/-- No-self-opponent is preserved by every sequence of operations that never
self-records. -/
theorem applyOps_noSelf : ∀ (ops : List (Op n)) (s : Fin n → Player),
    InjIds s → NoSelfOpp s → ops.all selfRecordFree = true →
    NoSelfOpp (applyOps s ops) := by
  intro ops
  induction ops with
  | nil => intro s _ h _; exact h
  | cons op ops ih =>
    intro s hinj hns hall
    rw [List.all_cons, Bool.and_eq_true] at hall
    exact ih (applyOp s op) (applyOp_injIds s op hinj)
      (applyOp_noSelf s op hinj hns hall.1) hall.2

/-- Symmetry is preserved by every sequence of operations that never
self-records and never resets. -/
theorem applyOps_symm : ∀ (ops : List (Op n)) (s : Fin n → Player),
    InjIds s → SymmOpp s → ops.all selfRecordFree = true →
    ops.all resetFree = true → SymmOpp (applyOps s ops) := by
  intro ops
  induction ops with
  | nil => intro s _ h _ _; exact h
  | cons op ops ih =>
    intro s hinj hsym hall1 hall2
    rw [List.all_cons, Bool.and_eq_true] at hall1 hall2
    exact ih (applyOp s op) (applyOp_injIds s op hinj)
      (applyOp_symm s op hinj hsym hall1.1 hall2.1) hall1.2 hall2.2

/-- C10, counterexample: after the legal sequence "record 0-vs-1, reset 0,
record 1-vs-1" the competitor with id 2 lists its own id among its opponents
(`record_match` has no guard against `opponent` being the caller itself), and
symmetry is broken (competitor 2 still lists id 1, but competitor 1's set was
cleared by `reset`). -/
theorem claim10_counterexample_self_and_reset :
    (c10End 1).id ∈ (c10End 1).opponents ∧
    (c10End 0).id ∈ (c10End 1).opponents ∧
    (c10End 1).id ∉ (c10End 0).opponents := by
  decide

/-- C10, amended: for every world of competitors with pairwise distinct ids
satisfying the invariant, and every sequence of `record_match`, `add_bye` and
`reset` operations in which `record_match` is never invoked with the
competitor itself as the opponent, the opponents sets never contain the
holder's own id; if additionally the sequence performs no `reset`, opponents
membership also stays symmetric. -/
theorem claim10_amended_invariant :
    ∀ (n : Nat) (s0 : Fin n → Player) (ops : List (Op n)),
      InjIds s0 → NoSelfOpp s0 → SymmOpp s0 →
      ops.all selfRecordFree = true →
      NoSelfOpp (applyOps s0 ops) ∧
      (ops.all resetFree = true → SymmOpp (applyOps s0 ops)) :=
  fun _ s0 ops hinj hns hsym hall =>
    ⟨applyOps_noSelf ops s0 hinj hns hall,
      fun hreset => applyOps_symm ops s0 hinj
        (fun u v hm => hsym u v hm) hall hreset⟩

/-- Witness for C10's amended invariant at a concrete world: two fresh
competitors, one legal recording and one bye. -/
theorem claim10_amended_invariant_witness :
    NoSelfOpp (applyOps c10WInit c10WOps) ∧ SymmOpp (applyOps c10WInit c10WOps) :=
  ⟨(claim10_amended_invariant 2 c10WInit c10WOps (by decide) (by decide)
      (by decide) (by decide)).1,
    (claim10_amended_invariant 2 c10WInit c10WOps (by decide) (by decide)
      (by decide) (by decide)).2 (by decide)⟩

end FencyScore
